import Mathlib

/-!
Verification of the nail-design try-on pipeline
(`src/components/nail-try-on.tsx`).

The development shallowly embeds the pipeline's pure core:
landmark geometry (`extractSingleNailDesign`, `processHandLandmarks`),
the per-pixel skin/background classifiers (`isSkinToneAdvanced`,
`isBackgroundPixel`), the enhancement pass, the compositing loop
(`applyDesignsToDetectedHand`) and the reset/stale-callback state
machine.  Geometry is over `ℝ` (the source uses `Math.sqrt` /
`Math.atan2`); the colour classifiers are over `ℚ` with the source's
decimal constants embedded exactly, so they are executable and
decidable.  Canvas pixel buffers are modelled as lists of RGBA
values; in-place mutation becomes a pure single-pass `List.map`.
-/

namespace NailTryOn

/-- Two-argument arctangent with the JavaScript `Math.atan2(y, x)`
branch conventions (result in `(-π, π]`, `atan2 0 0 = 0`). -/
noncomputable def atan2 (y x : ℝ) : ℝ :=
  if 0 < x then Real.arctan (y / x)
  else if x < 0 then
    (if 0 ≤ y then Real.arctan (y / x) + Real.pi else Real.arctan (y / x) - Real.pi)
  else if 0 < y then Real.pi / 2
  else if y < 0 then -(Real.pi / 2)
  else 0

/-- A MediaPipe hand landmark: normalized coordinates with optional
depth and visibility (the CDN build leaves `visibility` unset and the
pipeline never reads `z`). -/
structure HandLandmark where
  x : ℝ
  y : ℝ
  z : Option ℝ := none
  visibility : Option ℝ := none

/-- Landmark indices for one finger, mirroring the entries of the
`FINGER_LANDMARKS` table. -/
structure FingerIndices where
  tip : ℕ
  base : ℕ
  mid : ℕ
  pip : ℕ
deriving DecidableEq

/-- The static `FINGER_LANDMARKS` table: MediaPipe landmark indices for
tip, base, mid and pip of each of the five fingers, in source order. -/
def FINGER_LANDMARKS : List (String × FingerIndices) :=
  [("THUMB", ⟨4, 2, 3, 1⟩),
   ("INDEX", ⟨8, 6, 7, 5⟩),
   ("MIDDLE", ⟨12, 10, 11, 9⟩),
   ("RING", ⟨16, 14, 15, 13⟩),
   ("PINKY", ⟨20, 18, 19, 17⟩)]

/-- The `nailLength` computed in `extractSingleNailDesign`:
`Math.sqrt(Math.pow(tipPx.x - basePx.x, 2) + Math.pow(tipPx.y - basePx.y, 2))`
with `tipPx = (tip.x * naturalWidth, tip.y * naturalHeight)`. -/
noncomputable def nailLengthOf (tip base : HandLandmark) (imgW imgH : ℝ) : ℝ :=
  Real.sqrt ((tip.x * imgW - base.x * imgW) ^ 2 + (tip.y * imgH - base.y * imgH) ^ 2)

/-- The `rotation` computed in `extractSingleNailDesign`:
`Math.atan2(tipPx.y - midPx.y, tipPx.x - midPx.x)`. -/
noncomputable def rotationOf (tip mid : HandLandmark) (imgW imgH : ℝ) : ℝ :=
  atan2 (tip.y * imgH - mid.y * imgH) (tip.x * imgW - mid.x * imgW)

/-- Euclidean distance between two pixel points, written from the
spec's phrase `length = euclidean_distance(tipPx, basePx)`. -/
noncomputable def euclideanDist (p q : ℝ × ℝ) : ℝ :=
  Real.sqrt ((p.1 - q.1) ^ 2 + (p.2 - q.2) ^ 2)

/-- The record returned by `extractSingleNailDesign`.  The pixel
content of the design canvas is modelled separately (see
`enhanceRegion`); here we keep the canvas dimensions together with the
geometric fields of the source's `ExtractedNailDesign` interface. -/
structure ExtractedNailDesign where
  fingerId : String
  canvasWidth : ℝ
  canvasHeight : ℝ
  originalPosition : ℝ × ℝ
  rotation : ℝ
  scale : ℝ
  width : ℝ
  height : ℝ
  quality : ℝ

/-- Shallow embedding of `extractSingleNailDesign` (geometry part):
converts the three landmarks to pixel space, computes length, width
(`0.8 ×` length), rotation, quality `min(length / 50, 1)`, rejects with
`null` when `quality < 0.3 || nailLength < 20`, and otherwise returns
the design record with canvas size
`max(nailWidth * 1.5, 80) × max(nailLength * 1.5, 100)` and centre
`tipPx * 0.7 + basePx * 0.3`. -/
noncomputable def extractSingleNailDesign (fingerId : String)
    (tip base mid : HandLandmark) (imgW imgH : ℝ) : Option ExtractedNailDesign :=
  let nailLength := nailLengthOf tip base imgW imgH
  let nailWidth := nailLength * 0.8
  let rotation := rotationOf tip mid imgW imgH
  let quality := min (nailLength / 50) 1
  if quality < 0.3 ∨ nailLength < 20 then none
  else
    some { fingerId := fingerId
           canvasWidth := max (nailWidth * 1.5) 80
           canvasHeight := max (nailLength * 1.5) 100
           originalPosition :=
             (tip.x * imgW * 0.7 + base.x * imgW * 0.3,
              tip.y * imgH * 0.7 + base.y * imgH * 0.3)
           rotation := rotation
           scale := nailLength / 100
           width := nailWidth
           height := nailLength
           quality := quality }

/-- ASCII lower-casing, as `toLowerCase()` acts on the five ASCII
finger names of the table. -/
def lowerName (s : String) : String :=
  ⟨s.data.map Char.toLower⟩

/-- One step of the `Object.entries(FINGER_LANDMARKS).forEach` loop of
`processHandLandmarks`: look up the finger's tip/base/mid landmarks
and run `extractSingleNailDesign` when all three are present. -/
noncomputable def fingerExtract (lms : List HandLandmark) (imgW imgH : ℝ)
    (fingerName : String) (indices : FingerIndices) : Option ExtractedNailDesign :=
  match lms[indices.tip]?, lms[indices.base]?, lms[indices.mid]? with
  | some tip, some base, some mid =>
      extractSingleNailDesign (lowerName fingerName) tip base mid imgW imgH
  | _, _, _ => none

/-- Shallow embedding of `processHandLandmarks`: iterate the five
fingers in table order, pushing each successfully extracted design. -/
noncomputable def processHandLandmarks (lms : List HandLandmark)
    (imgW imgH : ℝ) : List ExtractedNailDesign :=
  FINGER_LANDMARKS.filterMap (fun e => fingerExtract lms imgW imgH e.1 e.2)

/-- Truncation toward zero, as used by the JavaScript `%` operator. -/
def jsTrunc (q : ℚ) : ℤ :=
  if 0 ≤ q then ⌊q⌋ else ⌈q⌉

/-- The JavaScript remainder operator `a % n` on numbers:
`a - n * trunc(a / n)` (result carries the sign of the dividend). -/
def jsRem (a n : ℚ) : ℚ :=
  a - n * (jsTrunc (a / n) : ℚ)

/-- The hue computed by Method 3 of `isSkinToneAdvanced`: `h` stays `0`
when `delta === 0`, otherwise the sector formula (with the JavaScript
`% 6` on the `max === r` branch), scaled by 60 and wrapped by `+360`
when negative. -/
def hueOf (r g b : ℚ) : ℚ :=
  let mx := max r (max g b)
  let mn := min r (min g b)
  let delta := mx - mn
  if delta = 0 then 0
  else
    let h0 := if mx = r then jsRem ((g - b) / delta) 6
              else if mx = g then (b - r) / delta + 2
              else (r - g) / delta + 4
    let h1 := h0 * 60
    if h1 < 0 then h1 + 360 else h1

/-- HSV saturation as computed in `isSkinToneAdvanced`:
`max === 0 ? 0 : delta / max`. -/
def satOf (r g b : ℚ) : ℚ :=
  let mx := max r (max g b)
  let mn := min r (min g b)
  if mx = 0 then 0 else (mx - mn) / mx

/-- HSV value as computed in `isSkinToneAdvanced`: `max / 255`. -/
def valOf (r g b : ℚ) : ℚ :=
  max r (max g b) / 255

/-- Shallow embedding of `isSkinToneAdvanced`: the logical OR of the
four skin heuristics exactly as written in the source (RGB ratios,
YCrCb approximation, HSV window, simple range). -/
def isSkinToneAdvanced (r g b : ℚ) : Bool :=
  let method1 := decide (r > 95) && decide (g > 40) && decide (b > 20) &&
    decide (max r (max g b) - min r (min g b) > 15) &&
    decide (|r - g| > 15) && decide (r > g) && decide (r > b)
  let y := 0.299 * r + 0.587 * g + 0.114 * b
  let cr := 0.713 * (r - y) + 128
  let cb := 0.564 * (b - y) + 128
  let method2 := decide (y > 80) && decide (cr ≥ 133) && decide (cr ≤ 173) &&
    decide (cb ≥ 77) && decide (cb ≤ 127)
  let h := hueOf r g b
  let s := satOf r g b
  let v := valOf r g b
  let method3 := decide (h ≥ 0) && decide (h ≤ 50) && decide (s ≥ 0.23) &&
    decide (s ≤ 0.68) && decide (v ≥ 0.35)
  let method4 := decide (r > 120) && decide (g > 80) && decide (b > 50) &&
    decide (r > b) && decide (g > b)
  method1 || method2 || method3 || method4

/-- Shallow embedding of `isBackgroundPixel`:
`brightness < 60 || brightness > 720 || (variance < 20 && brightness > 600)`
with `brightness = r + g + b` and `variance` the maximum pairwise
channel difference. -/
def isBackgroundPixel (r g b : ℚ) : Bool :=
  let brightness := r + g + b
  let variance := max (|r - g|) (max (|g - b|) (|r - b|))
  decide (brightness < 60) || decide (brightness > 720) ||
    (decide (variance < 20) && decide (brightness > 600))

/-- A pixel is a design pixel exactly when the enhancement loop keeps
it opaque: neither skin nor background. -/
def isDesignPixel (r g b : ℚ) : Bool :=
  !(isSkinToneAdvanced r g b || isBackgroundPixel r g b)

/-- Spec-side statement of the RGB-ratio skin rule, following the
claim's wording (`r − g > 15` in place of the source's absolute
difference conjoined with `r > g`). -/
def skinSpecRGBRatio (r g b : ℚ) : Prop :=
  r > 95 ∧ g > 40 ∧ b > 20 ∧ max r (max g b) - min r (min g b) > 15 ∧
    r - g > 15 ∧ r > g ∧ r > b

/-- Spec-side statement of the YCrCb skin rule, from the claim's
formulas. -/
def skinSpecYCrCb (r g b : ℚ) : Prop :=
  let y := 0.299 * r + 0.587 * g + 0.114 * b
  let cr := 0.713 * (r - y) + 128
  let cb := 0.564 * (b - y) + 128
  y > 80 ∧ 133 ≤ cr ∧ cr ≤ 173 ∧ 77 ≤ cb ∧ cb ≤ 127

/-- Standard RGB→HSV hue (textbook sector formula, no remainder
operator; hue of an achromatic pixel conventionally `0`), used by the
spec-side HSV rule. -/
def stdHue (r g b : ℚ) : ℚ :=
  let mx := max r (max g b)
  let mn := min r (min g b)
  let delta := mx - mn
  if delta = 0 then 0
  else
    let h0 := if mx = r then (g - b) / delta
              else if mx = g then (b - r) / delta + 2
              else (r - g) / delta + 4
    let h1 := h0 * 60
    if h1 < 0 then h1 + 360 else h1

/-- Spec-side statement of the HSV skin rule: hue in `[0, 50]`
degrees, saturation in `[0.23, 0.68]`, value at least `0.35`, all via
the standard RGB→HSV conversion. -/
def skinSpecHSV (r g b : ℚ) : Prop :=
  0 ≤ stdHue r g b ∧ stdHue r g b ≤ 50 ∧
    0.23 ≤ satOf r g b ∧ satOf r g b ≤ 0.68 ∧ 0.35 ≤ valOf r g b

/-- Spec-side statement of the simplified range skin rule. -/
def skinSpecSimple (r g b : ℚ) : Prop :=
  r > 120 ∧ g > 80 ∧ b > 50 ∧ r > b ∧ g > b

/-- Spec-side skin classifier: the OR of the four heuristics as the
claim states them. -/
def skinSpec (r g b : ℚ) : Prop :=
  skinSpecRGBRatio r g b ∨ skinSpecYCrCb r g b ∨ skinSpecHSV r g b ∨
    skinSpecSimple r g b

/-- Spec-side background classifier, following the claim's wording. -/
def backgroundSpec (r g b : ℚ) : Prop :=
  r + g + b < 60 ∨ r + g + b > 720 ∨
    (max (|r - g|) (max (|g - b|) (|r - b|)) < 20 ∧ r + g + b > 600)

/-- An RGBA pixel of an extracted region buffer.  Channel values are
the JavaScript numbers the enhancement loop reads and writes; the byte
quantisation performed by the backing `Uint8ClampedArray` on store is
abstracted away. -/
structure RGBA where
  r : ℚ
  g : ℚ
  b : ℚ
  a : ℚ

/-- One iteration of the enhancement loop of
`extractSingleNailDesign`: skin or background pixels become fully
transparent (`data[i+3] = 0`); design pixels get each colour channel
multiplied by the brightness factor `1.2`, clamped to `255`, with
alpha untouched. -/
def enhancePixel (p : RGBA) : RGBA :=
  if isSkinToneAdvanced p.r p.g p.b || isBackgroundPixel p.r p.g p.b then
    { p with a := 0 }
  else
    { p with r := min 255 (p.r * 1.2), g := min 255 (p.g * 1.2),
             b := min 255 (p.b * 1.2) }

/-- The whole enhancement pass: a single sweep over the region's pixel
data (the source's in-place `for` loop over `imageData.data`). -/
def enhanceRegion (data : List RGBA) : List RGBA :=
  data.map enhancePixel

/-- One design drawn by the compositing loop of
`applyDesignsToDetectedHand`: the finger slot it was drawn at and the
translate/rotate/scale parameters of the canvas transform. -/
structure AppliedDesign where
  fingerName : String
  design : ExtractedNailDesign
  center : ℝ × ℝ
  rotation : ℝ
  scale : ℝ

/-- One step of the compositing `forEach`: the design is applied when
the target hand has tip/base/mid landmarks for this finger AND
`extractedDesigns[index]` exists — the lookup is by position `index`
in the stored array, exactly as in the source. -/
noncomputable def fingerComposite (hand : List HandLandmark)
    (designs : List ExtractedNailDesign) (canvasW canvasH : ℝ)
    (index : ℕ) (fingerName : String) (indices : FingerIndices) :
    Option AppliedDesign :=
  match hand[indices.tip]?, hand[indices.base]?, hand[indices.mid]?,
        designs[index]? with
  | some tipL, some baseL, some midL, some design =>
      let tip : ℝ × ℝ := (tipL.x * canvasW, tipL.y * canvasH)
      let base : ℝ × ℝ := (baseL.x * canvasW, baseL.y * canvasH)
      let mid : ℝ × ℝ := (midL.x * canvasW, midL.y * canvasH)
      let nailLength := Real.sqrt ((tip.1 - base.1) ^ 2 + (tip.2 - base.2) ^ 2)
      let rotation := atan2 (tip.2 - mid.2) (tip.1 - mid.1)
      some { fingerName := fingerName
             design := design
             center := (tip.1 * 0.7 + base.1 * 0.3, tip.2 * 0.7 + base.2 * 0.3)
             rotation := rotation
             scale := nailLength / design.height }
  | _, _, _, _ => none

/-- The list of designs actually drawn by the compositing loop, in
finger-table order (the source's `forEach` over
`Object.entries(FINGER_LANDMARKS)` with its element index). -/
noncomputable def compositeApplications (hand : List HandLandmark)
    (designs : List ExtractedNailDesign) (canvasW canvasH : ℝ) :
    List AppliedDesign :=
  FINGER_LANDMARKS.enum.filterMap
    (fun p => fingerComposite hand designs canvasW canvasH p.1 p.2.1 p.2.2)

/-- An input image (only its identity and natural dimensions matter to
the model). -/
structure Image where
  naturalWidth : ℝ
  naturalHeight : ℝ
  id : ℕ

/-- The result canvas: the base image drawn at full size plus the
overlays painted on top of it. -/
structure ResultCanvas where
  base : Image
  overlays : List AppliedDesign

/-- Everything `applyDesignsToDetectedHand` produces: the result
canvas, the exported data URL (`processedImage`), whether the step
advanced to `"apply"`, and the reported `designsApplied` count. -/
structure CompositeOutput where
  canvas : ResultCanvas
  processedImage : Option ResultCanvas
  stepApply : Bool
  designsApplied : ℕ

/-- Shallow embedding of `applyDesignsToDetectedHand`: the original
image is always drawn to the result canvas first; when at least one
hand was detected the compositing loop runs and `currentStep` becomes
`"apply"`; either way the canvas is exported as the processed image. -/
noncomputable def applyDesignsToDetectedHand
    (multiHandLandmarks : List (List HandLandmark))
    (designs : List ExtractedNailDesign) (originalImage : Image) :
    CompositeOutput :=
  match multiHandLandmarks with
  | hand :: _ =>
      let apps := compositeApplications hand designs
        originalImage.naturalWidth originalImage.naturalHeight
      { canvas := ⟨originalImage, apps⟩
        processedImage := some ⟨originalImage, apps⟩
        stepApply := true
        designsApplied := apps.length }
  | [] =>
      { canvas := ⟨originalImage, []⟩
        processedImage := some ⟨originalImage, []⟩
        stepApply := false
        designsApplied := 0 }

/-- Rotation of a plane point about the origin. -/
noncomputable def rotatePoint (θ : ℝ) (p : ℝ × ℝ) : ℝ × ℝ :=
  (p.1 * Real.cos θ - p.2 * Real.sin θ, p.1 * Real.sin θ + p.2 * Real.cos θ)

/-- The source-to-canvas coordinate map realised by the extraction
draw of `extractSingleNailDesign` (translate to the canvas centre,
rotate by `-rotation`, copy the window centred at the nail centre),
for the un-clamped case where the window lies inside the source. -/
noncomputable def extractionMap (center : ℝ × ℝ) (rotation : ℝ)
    (canvasW canvasH : ℝ) (q : ℝ × ℝ) : ℝ × ℝ :=
  let d := rotatePoint (-rotation) (q.1 - center.1, q.2 - center.2)
  (canvasW / 2 + d.1, canvasH / 2 + d.2)

/-- The canvas-to-target coordinate map realised by the compositing
draw (`translate(center)`, `rotate(rotation)`, `scale(scale)`, draw
the design centred at the local origin). -/
noncomputable def compositeMap (center : ℝ × ℝ) (rotation scale : ℝ)
    (designW designH : ℝ) (v : ℝ × ℝ) : ℝ × ℝ :=
  let d := rotatePoint rotation (v.1 - designW / 2, v.2 - designH / 2)
  (center.1 + scale * d.1, center.2 + scale * d.2)

/-- The React state fields touched by reset and by the detector
callbacks. -/
structure AppState where
  postImage : Option ℕ
  userImage : Option ℕ
  processedImage : Option ℕ
  extractedDesigns : List ExtractedNailDesign
  currentStep : String
  error : Option String
  statusMessage : String
  processingProgress : ℕ
  isLoading : Bool

/-- Shallow embedding of `handleReset`: clears the images, the stored
designs, the error and the progress, and returns to the `"upload"`
step. -/
def handleReset (s : AppState) : AppState :=
  { s with postImage := none
           userImage := none
           processedImage := none
           extractedDesigns := []
           currentStep := "upload"
           error := none
           statusMessage := "Upload a nail design image to start."
           processingProgress := 0 }

/-- Shallow embedding of the `onResults` callback registered by
`extractNailDesigns` (lines 274-299): it runs against whatever state
is current when the detector answers — there is no generation counter
or cancellation token.  An empty result list models
`processHandLandmarks` throwing and the surrounding `catch`. -/
noncomputable def extractionOnResults
    (multiHandLandmarks : List (List HandLandmark)) (imgW imgH : ℝ)
    (s : AppState) : AppState :=
  match multiHandLandmarks with
  | [] =>
      { s with error := some "Error extracting nail designs. Please try another image."
               isLoading := false
               processingProgress := 0 }
  | hand :: _ =>
      let designs := processHandLandmarks hand imgW imgH
      if designs.length > 0 then
        { s with extractedDesigns := designs
                 currentStep := "capture"
                 statusMessage := "Successfully extracted " ++ toString designs.length ++
                   " nail designs! Now capture your hand to apply them."
                 processingProgress := 100
                 isLoading := false }
      else
        { s with error := some "Could not extract any nail designs. Please try an image with clearer nail visibility."
                 processingProgress := 0
                 isLoading := false }

/-- Landmark at normalized `(0.5, 0.2)` — the tip row of the vertical
test fingers from Scenario 1. -/
noncomputable def lmA : HandLandmark := { x := 0.5, y := 0.2 }

/-- Landmark at normalized `(0.5, 0.4)` — the base row. -/
noncomputable def lmB : HandLandmark := { x := 0.5, y := 0.4 }

/-- Landmark at normalized `(0.5, 0.3)` — the mid row. -/
noncomputable def lmC : HandLandmark := { x := 0.5, y := 0.3 }

/-- Filler landmark for palm joints the pipeline never reads. -/
noncomputable def lmO : HandLandmark := { x := 0, y := 0 }

/-- A 21-point source hand in which the thumb landmarks are degenerate
(tip = base = mid, so the thumb's nail length is 0 and its extraction
is rejected) while the other four fingers are vertical segments of
pixel length 200 on a 1000×1000 image. -/
noncomputable def srcHand : List HandLandmark :=
  [lmO, lmO, lmA, lmA, lmA,
   lmO, lmB, lmC, lmA,
   lmO, lmB, lmC, lmA,
   lmO, lmB, lmC, lmA,
   lmO, lmB, lmC, lmA]

/-- A 21-point target hand in which all five fingers, the thumb
included, are vertical segments of pixel length 200. -/
noncomputable def tgtHand : List HandLandmark :=
  [lmO, lmO, lmB, lmC, lmA,
   lmO, lmB, lmC, lmA,
   lmO, lmB, lmC, lmA,
   lmO, lmB, lmC, lmA,
   lmO, lmB, lmC, lmA]

/-- The design extracted from a vertical finger (tip `(0.5, 0.2)`,
base `(0.5, 0.4)`, mid `(0.5, 0.3)`) of a 1000×1000 source image. -/
noncomputable def designVert (f : String) : ExtractedNailDesign :=
  { fingerId := f
    canvasWidth := 240
    canvasHeight := 300
    originalPosition := (500, 260)
    rotation := -(Real.pi / 2)
    scale := 2
    width := 160
    height := 200
    quality := 1 }

lemma atan2_zero_neg (y : ℝ) (hy : y < 0) : atan2 y 0 = -(Real.pi / 2) := by
  unfold atan2
  rw [if_neg (lt_irrefl 0), if_neg (lt_irrefl 0), if_neg (not_lt.mpr hy.le), if_pos hy]

lemma nailLength_vert : nailLengthOf lmA lmB 1000 1000 = 200 := by
  have h : (lmA.x * 1000 - lmB.x * 1000) ^ 2 + (lmA.y * 1000 - lmB.y * 1000) ^ 2
      = (200 : ℝ) ^ 2 := by norm_num [lmA, lmB]
  unfold nailLengthOf
  rw [h, Real.sqrt_sq (by norm_num)]

lemma rotation_vert : rotationOf lmA lmC 1000 1000 = -(Real.pi / 2) := by
  have h1 : lmA.y * (1000 : ℝ) - lmC.y * 1000 = -100 := by norm_num [lmA, lmC]
  have h2 : lmA.x * (1000 : ℝ) - lmC.x * 1000 = 0 := by norm_num [lmA, lmC]
  unfold rotationOf
  rw [h1, h2, atan2_zero_neg _ (by norm_num)]

lemma extract_vertical (f : String) :
    extractSingleNailDesign f lmA lmB lmC 1000 1000 = some (designVert f) := by
  unfold extractSingleNailDesign
  simp only [nailLength_vert, rotation_vert]
  rw [if_neg (by norm_num [min_def])]
  simp only [designVert, Option.some.injEq, ExtractedNailDesign.mk.injEq, Prod.ext_iff]
  norm_num [lmA, lmB, max_def, min_def]

lemma extract_degenerate (f : String) :
    extractSingleNailDesign f lmA lmA lmA 1000 1000 = none := by
  have h : nailLengthOf lmA lmA 1000 1000 = 0 := by
    have harg : (lmA.x * 1000 - lmA.x * 1000) ^ 2 + (lmA.y * 1000 - lmA.y * 1000) ^ 2
        = (0 : ℝ) := by norm_num
    unfold nailLengthOf
    rw [harg, Real.sqrt_zero]
  unfold extractSingleNailDesign
  simp only [h]
  rw [if_pos (by norm_num [min_def])]

lemma fingerExtract_eval (lms : List HandLandmark) (imgW imgH : ℝ)
    (fingerName : String) (indices : FingerIndices) (tip base mid : HandLandmark)
    (htip : lms[indices.tip]? = some tip) (hbase : lms[indices.base]? = some base)
    (hmid : lms[indices.mid]? = some mid) :
    fingerExtract lms imgW imgH fingerName indices =
      extractSingleNailDesign (lowerName fingerName) tip base mid imgW imgH := by
  unfold fingerExtract
  rw [htip, hbase, hmid]

lemma fe_src_thumb : fingerExtract srcHand 1000 1000 "THUMB" ⟨4, 2, 3, 1⟩ = none := by
  rw [fingerExtract_eval srcHand 1000 1000 "THUMB" ⟨4, 2, 3, 1⟩ lmA lmA lmA rfl rfl rfl]
  exact extract_degenerate _

lemma fe_src_index : fingerExtract srcHand 1000 1000 "INDEX" ⟨8, 6, 7, 5⟩
    = some (designVert "index") := by
  rw [fingerExtract_eval srcHand 1000 1000 "INDEX" ⟨8, 6, 7, 5⟩ lmA lmB lmC rfl rfl rfl,
    show lowerName "INDEX" = "index" by decide]
  exact extract_vertical _

lemma fe_src_middle : fingerExtract srcHand 1000 1000 "MIDDLE" ⟨12, 10, 11, 9⟩
    = some (designVert "middle") := by
  rw [fingerExtract_eval srcHand 1000 1000 "MIDDLE" ⟨12, 10, 11, 9⟩ lmA lmB lmC rfl rfl rfl,
    show lowerName "MIDDLE" = "middle" by decide]
  exact extract_vertical _

lemma fe_src_ring : fingerExtract srcHand 1000 1000 "RING" ⟨16, 14, 15, 13⟩
    = some (designVert "ring") := by
  rw [fingerExtract_eval srcHand 1000 1000 "RING" ⟨16, 14, 15, 13⟩ lmA lmB lmC rfl rfl rfl,
    show lowerName "RING" = "ring" by decide]
  exact extract_vertical _

lemma fe_src_pinky : fingerExtract srcHand 1000 1000 "PINKY" ⟨20, 18, 19, 17⟩
    = some (designVert "pinky") := by
  rw [fingerExtract_eval srcHand 1000 1000 "PINKY" ⟨20, 18, 19, 17⟩ lmA lmB lmC rfl rfl rfl,
    show lowerName "PINKY" = "pinky" by decide]
  exact extract_vertical _

lemma processHand_src : processHandLandmarks srcHand 1000 1000 =
    [designVert "index", designVert "middle", designVert "ring", designVert "pinky"] := by
  unfold processHandLandmarks FINGER_LANDMARKS
  simp only [List.filterMap_cons, List.filterMap_nil, fe_src_thumb, fe_src_index,
    fe_src_middle, fe_src_ring, fe_src_pinky]

lemma fingerComposite_eval (hand : List HandLandmark)
    (designs : List ExtractedNailDesign) (canvasW canvasH : ℝ) (index : ℕ)
    (fingerName : String) (indices : FingerIndices)
    (tipL baseL midL : HandLandmark) (design : ExtractedNailDesign)
    (htip : hand[indices.tip]? = some tipL) (hbase : hand[indices.base]? = some baseL)
    (hmid : hand[indices.mid]? = some midL) (hdes : designs[index]? = some design) :
    fingerComposite hand designs canvasW canvasH index fingerName indices =
      some { fingerName := fingerName
             design := design
             center := (tipL.x * canvasW * 0.7 + baseL.x * canvasW * 0.3,
                        tipL.y * canvasH * 0.7 + baseL.y * canvasH * 0.3)
             rotation := atan2 (tipL.y * canvasH - midL.y * canvasH)
               (tipL.x * canvasW - midL.x * canvasW)
             scale := Real.sqrt ((tipL.x * canvasW - baseL.x * canvasW) ^ 2 +
               (tipL.y * canvasH - baseL.y * canvasH) ^ 2) / design.height } := by
  unfold fingerComposite
  rw [htip, hbase, hmid, hdes]

lemma fingerComposite_some_design (hand : List HandLandmark)
    (designs : List ExtractedNailDesign) (canvasW canvasH : ℝ) (index : ℕ)
    (fingerName : String) (indices : FingerIndices) (a : AppliedDesign)
    (h : fingerComposite hand designs canvasW canvasH index fingerName indices = some a) :
    designs[index]? = some a.design ∧ a.fingerName = fingerName := by
  unfold fingerComposite at h
  rcases htip : hand[indices.tip]? with _ | tipL <;> rw [htip] at h <;>
    rcases hbase : hand[indices.base]? with _ | baseL <;> rw [hbase] at h <;>
      rcases hmid : hand[indices.mid]? with _ | midL <;> rw [hmid] at h <;>
        rcases hdes : designs[index]? with _ | design <;> rw [hdes] at h <;>
          simp only [Option.some.injEq, reduceCtorEq] at h
  subst h
  exact ⟨rfl, rfl⟩

/-- Every design drawn by the compositing loop comes from the stored
design list: compositing never invents a design. -/
lemma composite_design_mem (hand : List HandLandmark)
    (designs : List ExtractedNailDesign) (canvasW canvasH : ℝ)
    (a : AppliedDesign) (ha : a ∈ compositeApplications hand designs canvasW canvasH) :
    a.design ∈ designs := by
  obtain ⟨p, _, hf⟩ := List.mem_filterMap.1 ha
  exact List.getElem?_mem
    (fingerComposite_some_design hand designs canvasW canvasH p.1 p.2.1 p.2.2 a hf).1

lemma jsTrunc_eq_zero {q : ℚ} (h1 : -1 < q) (h2 : q < 1) : jsTrunc q = 0 := by
  unfold jsTrunc
  split_ifs with h
  · exact Int.floor_eq_zero_iff.2 (Set.mem_Ico.2 ⟨h, h2⟩)
  · exact Int.ceil_eq_zero_iff.2 (Set.mem_Ioc.2 ⟨h1, (not_le.1 h).le⟩)

lemma jsRem_six_self (a : ℚ) (h1 : -6 < a) (h2 : a < 6) : jsRem a 6 = a := by
  unfold jsRem
  rw [jsTrunc_eq_zero (by linarith) (by linarith)]
  push_cast
  ring

/-- The hue produced by the source (with the JavaScript `% 6`) agrees
with the textbook RGB→HSV hue on every input: on the `max = r` branch
the sector quotient lies in `[-1, 1]`, where `% 6` is the identity. -/
lemma hueOf_eq_stdHue (r g b : ℚ) : hueOf r g b = stdHue r g b := by
  simp only [hueOf, stdHue]
  by_cases hd : max r (max g b) - min r (min g b) = 0
  · rw [if_pos hd, if_pos hd]
  · rw [if_neg hd, if_neg hd]
    by_cases hr : max r (max g b) = r
    · have hmn : min r (min g b) ≤ max r (max g b) :=
        (min_le_left _ _).trans (le_max_left _ _)
      have hδ : 0 < max r (max g b) - min r (min g b) :=
        lt_of_le_of_ne (by linarith) (Ne.symm hd)
      have hg : g ≤ max r (max g b) := (le_max_left g b).trans (le_max_right _ _)
      have hb : min r (min g b) ≤ b := (min_le_right _ _).trans (min_le_right g b)
      have hb2 : b ≤ max r (max g b) := (le_max_right g b).trans (le_max_right _ _)
      have hg2 : min r (min g b) ≤ g := (min_le_right _ _).trans (min_le_left g b)
      have hub : (g - b) / (max r (max g b) - min r (min g b)) < 6 := by
        rw [div_lt_iff₀ hδ]; nlinarith
      have hlb : -6 < (g - b) / (max r (max g b) - min r (min g b)) := by
        rw [lt_div_iff₀ hδ]; nlinarith
      rw [if_pos hr, if_pos hr, jsRem_six_self _ hlb hub]
    · rw [if_neg hr, if_neg hr]

/-- Claim C3: for every RGB pixel with channels in `[0, 255]`, the
skin classifier returns skin if and only if at least one of the four
independent heuristics holds — the RGB-ratio rule, the YCrCb rule,
the HSV rule (standard RGB→HSV conversion) or the simplified range
rule. -/
theorem claim_C3_skin_classifier (r g b : ℚ)
    (hr0 : 0 ≤ r) (hr1 : r ≤ 255) (hg0 : 0 ≤ g) (hg1 : g ≤ 255)
    (hb0 : 0 ≤ b) (hb1 : b ≤ 255) :
    isSkinToneAdvanced r g b = true ↔ skinSpec r g b := by
  unfold isSkinToneAdvanced skinSpec skinSpecRGBRatio skinSpecYCrCb skinSpecHSV skinSpecSimple
  simp only [Bool.or_eq_true, Bool.and_eq_true, decide_eq_true_eq, hueOf_eq_stdHue,
    ge_iff_le, and_assoc, or_assoc]
  constructor
  · rintro (⟨h1, h2, h3, h4, h5, h6, h7⟩ | h | h | h)
    · exact Or.inl ⟨h1, h2, h3, h4, by rwa [abs_of_pos (sub_pos.2 h6)] at h5, h6, h7⟩
    · exact Or.inr (Or.inl h)
    · exact Or.inr (Or.inr (Or.inl h))
    · exact Or.inr (Or.inr (Or.inr h))
  · rintro (⟨h1, h2, h3, h4, h5, h6, h7⟩ | h | h | h)
    · exact Or.inl ⟨h1, h2, h3, h4, by rwa [abs_of_pos (sub_pos.2 h6)], h6, h7⟩
    · exact Or.inr (Or.inl h)
    · exact Or.inr (Or.inr (Or.inl h))
    · exact Or.inr (Or.inr (Or.inr h))

/-- Witness for C3: the pixel `(150, 100, 60)` lies in range and the
equivalence holds there. -/
theorem claim_C3_skin_classifier_witness :
    (0 : ℚ) ≤ 150 ∧ (150 : ℚ) ≤ 255 ∧ (0 : ℚ) ≤ 100 ∧ (100 : ℚ) ≤ 255 ∧
      (0 : ℚ) ≤ 60 ∧ (60 : ℚ) ≤ 255 ∧
      (isSkinToneAdvanced 150 100 60 = true ↔ skinSpec 150 100 60) :=
  ⟨by norm_num, by norm_num, by norm_num, by norm_num, by norm_num, by norm_num,
    claim_C3_skin_classifier 150 100 60 (by norm_num) (by norm_num) (by norm_num)
      (by norm_num) (by norm_num) (by norm_num)⟩

/-- Claim C4: the background classifier fires exactly on
brightness `< 60`, brightness `> 720`, or max pairwise channel
difference `< 20` together with brightness `> 600`; the uniform gray
pixel `(128, 128, 128)` is therefore neither background nor skin, and
so is classified design. -/
theorem claim_C4_background_classifier :
    (∀ r g b : ℚ, isBackgroundPixel r g b = true ↔ backgroundSpec r g b) ∧
    isBackgroundPixel 128 128 128 = false ∧
    isSkinToneAdvanced 128 128 128 = false ∧
    isDesignPixel 128 128 128 = true := by
  refine ⟨fun r g b => ?_,
    by norm_num [isBackgroundPixel],
    by norm_num [isSkinToneAdvanced, hueOf, satOf, valOf],
    by norm_num [isDesignPixel, isSkinToneAdvanced, isBackgroundPixel, hueOf, satOf, valOf]⟩
  unfold isBackgroundPixel backgroundSpec
  simp only [Bool.or_eq_true, Bool.and_eq_true, decide_eq_true_eq, or_assoc]

lemma extract_none_iff (f : String) (tip base mid : HandLandmark) (w h : ℝ) :
    extractSingleNailDesign f tip base mid w h = none ↔
      (min (nailLengthOf tip base w h / 50) 1 < 0.3 ∨ nailLengthOf tip base w h < 20) := by
  simp only [extractSingleNailDesign]
  split_ifs with hcond
  · exact iff_of_true rfl hcond
  · exact iff_of_false not_false hcond

lemma extract_some_inv {f : String} {tip base mid : HandLandmark} {w h : ℝ}
    {d : ExtractedNailDesign}
    (hd : extractSingleNailDesign f tip base mid w h = some d) :
    ¬(min (nailLengthOf tip base w h / 50) 1 < 0.3 ∨ nailLengthOf tip base w h < 20) ∧
    d = { fingerId := f
          canvasWidth := max (nailLengthOf tip base w h * 0.8 * 1.5) 80
          canvasHeight := max (nailLengthOf tip base w h * 1.5) 100
          originalPosition := (tip.x * w * 0.7 + base.x * w * 0.3,
                               tip.y * h * 0.7 + base.y * h * 0.3)
          rotation := rotationOf tip mid w h
          scale := nailLengthOf tip base w h / 100
          width := nailLengthOf tip base w h * 0.8
          height := nailLengthOf tip base w h
          quality := min (nailLengthOf tip base w h / 50) 1 } := by
  simp only [extractSingleNailDesign] at hd
  split_ifs at hd with hcond
  refine ⟨hcond, ?_⟩
  injection hd with hd
  exact hd.symm

lemma fingerExtract_some_fingerId {lms : List HandLandmark} {w h : ℝ}
    {fingerName : String} {indices : FingerIndices} {d : ExtractedNailDesign}
    (hfe : fingerExtract lms w h fingerName indices = some d) :
    d.fingerId = lowerName fingerName := by
  unfold fingerExtract at hfe
  rcases h1 : lms[indices.tip]? with _ | tip <;> rw [h1] at hfe <;>
    rcases h2 : lms[indices.base]? with _ | base <;> rw [h2] at hfe <;>
      rcases h3 : lms[indices.mid]? with _ | mid <;> rw [h3] at hfe <;>
        simp only [reduceCtorEq] at hfe
  obtain ⟨_, rfl⟩ := extract_some_inv hfe
  rfl

lemma fingerExtract_missing_none (lms : List HandLandmark) (w h : ℝ)
    (fingerName : String) (indices : FingerIndices)
    (hmiss : lms[indices.tip]? = none ∨ lms[indices.base]? = none ∨
      lms[indices.mid]? = none) :
    fingerExtract lms w h fingerName indices = none := by
  unfold fingerExtract
  rcases hmiss with hm | hm | hm
  · rw [hm]
  · rcases h1 : lms[indices.tip]? with _ | tip
    · rfl
    · rw [hm]
  · rcases h1 : lms[indices.tip]? with _ | tip
    · rfl
    · rcases h2 : lms[indices.base]? with _ | base
      · rfl
      · rw [hm]

/-- The five finger names of the table have pairwise distinct
lower-casings, so a design's `fingerId` identifies its source entry. -/
lemma table_names_distinct :
    ∀ e1 ∈ FINGER_LANDMARKS, ∀ e2 ∈ FINGER_LANDMARKS,
      lowerName e1.1 = lowerName e2.1 → e1 = e2 := by decide

/-- Claim C1: for every landmark triple and image dimensions the
extraction geometry has
`rotation = atan2(tip.y*h - mid.y*h, tip.x*w - mid.x*w)` (mid→tip, not
base→tip) and `length` equal to the Euclidean tip–base pixel distance;
any design actually produced carries exactly these values; and on
Scenario 1 (tip `(0.5, 0.2)`, base `(0.5, 0.4)`, mid `(0.5, 0.3)`,
1000×1000 image) the rotation is `-π/2` and the length is `200`. -/
theorem claim_C1_geometry :
    (∀ (tip base mid : HandLandmark) (w h : ℝ),
      rotationOf tip mid w h = atan2 (tip.y * h - mid.y * h) (tip.x * w - mid.x * w) ∧
      nailLengthOf tip base w h =
        euclideanDist (tip.x * w, tip.y * h) (base.x * w, base.y * h)) ∧
    (∀ (f : String) (tip base mid : HandLandmark) (w h : ℝ) (d : ExtractedNailDesign),
      extractSingleNailDesign f tip base mid w h = some d →
      d.rotation = rotationOf tip mid w h ∧ d.height = nailLengthOf tip base w h) ∧
    rotationOf lmA lmC 1000 1000 = -(Real.pi / 2) ∧
    nailLengthOf lmA lmB 1000 1000 = 200 := by
  refine ⟨fun tip base mid w h => ⟨rfl, rfl⟩,
    fun f tip base mid w h d hd => ?_, rotation_vert, nailLength_vert⟩
  obtain ⟨-, rfl⟩ := extract_some_inv hd
  exact ⟨rfl, rfl⟩

/-- Witness for C1: the second conjunct applied to the successful
Scenario 1 extraction of the index finger. -/
theorem claim_C1_geometry_witness :
    extractSingleNailDesign "index" lmA lmB lmC 1000 1000 = some (designVert "index") ∧
    (designVert "index").rotation = rotationOf lmA lmC 1000 1000 ∧
    (designVert "index").height = nailLengthOf lmA lmB 1000 1000 :=
  ⟨extract_vertical "index",
    claim_C1_geometry.2.1 "index" lmA lmB lmC 1000 1000 _ (extract_vertical "index")⟩

/-- Claim C7: one enhancement step makes a skin or background pixel
fully transparent (alpha `0`, RGB untouched) and otherwise multiplies
each colour channel by `1.2` clamped to at most `255` with alpha
unchanged; the whole pass is a single sweep of the buffer. -/
theorem claim_C7_enhancement (p : RGBA) :
    ((isSkinToneAdvanced p.r p.g p.b || isBackgroundPixel p.r p.g p.b) = true →
      enhancePixel p = { p with a := 0 }) ∧
    ((isSkinToneAdvanced p.r p.g p.b || isBackgroundPixel p.r p.g p.b) = false →
      enhancePixel p = { r := min 255 (p.r * 1.2), g := min 255 (p.g * 1.2),
                         b := min 255 (p.b * 1.2), a := p.a }) ∧
    ∀ data : List RGBA, enhanceRegion data = data.map enhancePixel := by
  refine ⟨fun hcls => ?_, fun hcls => ?_, fun data => rfl⟩
  · unfold enhancePixel
    rw [if_pos hcls]
  · unfold enhancePixel
    rw [if_neg (by simp [hcls])]

/-- Witness for C7: the skin-coloured pixel `(150, 100, 60, 255)` is
classified skin and is made transparent by the enhancement step. -/
theorem claim_C7_enhancement_witness :
    (isSkinToneAdvanced 150 100 60 || isBackgroundPixel 150 100 60) = true ∧
    enhancePixel ⟨150, 100, 60, 255⟩ = ⟨150, 100, 60, 0⟩ := by
  have habs : |(150 : ℚ) - 100| = 50 := by
    rw [show (150 : ℚ) - 100 = 50 by norm_num]
    exact abs_of_pos (by norm_num)
  have hcls : (isSkinToneAdvanced 150 100 60 || isBackgroundPixel 150 100 60) = true := by
    simp only [isSkinToneAdvanced, Bool.or_eq_true, Bool.and_eq_true,
      decide_eq_true_eq, and_assoc, or_assoc]
    left
    rw [habs]
    norm_num [max_def, min_def]
  exact ⟨hcls, (claim_C7_enhancement ⟨150, 100, 60, 255⟩).1 hcls⟩

/-- Claim C10: every design returned by `extractSingleNailDesign` has
quality `min(length/50, 1)` within `[0.4, 1]`, height equal to the
tip–base length and at least `20`, width `0.8 ×` that length, and a
canvas of `max(1.2·length, 80) × max(1.5·length, 100)` pixels, hence
at least `80 × 100`. -/
theorem claim_C10_design_invariants (f : String) (tip base mid : HandLandmark)
    (w h : ℝ) (d : ExtractedNailDesign)
    (hd : extractSingleNailDesign f tip base mid w h = some d) :
    d.quality = min (d.height / 50) 1 ∧ 0.4 ≤ d.quality ∧ d.quality ≤ 1 ∧
    d.height = nailLengthOf tip base w h ∧ 20 ≤ d.height ∧
    d.width = 0.8 * d.height ∧
    d.canvasWidth = max (1.2 * d.height) 80 ∧
    d.canvasHeight = max (1.5 * d.height) 100 ∧
    80 ≤ d.canvasWidth ∧ 100 ≤ d.canvasHeight := by
  obtain ⟨hcond, rfl⟩ := extract_some_inv hd
  push_neg at hcond
  obtain ⟨-, hlen⟩ := hcond
  refine ⟨rfl, ?_, min_le_right _ _, rfl, hlen, by ring, ?_, ?_, ?_, ?_⟩
  · exact le_min (by linarith) (by norm_num)
  · show max (nailLengthOf tip base w h * 0.8 * 1.5) 80 =
      max (1.2 * nailLengthOf tip base w h) 80
    rw [show nailLengthOf tip base w h * 0.8 * 1.5 =
      1.2 * nailLengthOf tip base w h by ring]
  · show max (nailLengthOf tip base w h * 1.5) 100 =
      max (1.5 * nailLengthOf tip base w h) 100
    rw [mul_comm]
  · exact le_max_right _ _
  · exact le_max_right _ _

/-- Witness for C10: the invariants instantiated at the Scenario 1
index-finger extraction. -/
theorem claim_C10_design_invariants_witness :
    extractSingleNailDesign "index" lmA lmB lmC 1000 1000 = some (designVert "index") ∧
    ((designVert "index").quality = min ((designVert "index").height / 50) 1 ∧
     0.4 ≤ (designVert "index").quality ∧ (designVert "index").quality ≤ 1 ∧
     (designVert "index").height = nailLengthOf lmA lmB 1000 1000 ∧
     20 ≤ (designVert "index").height ∧
     (designVert "index").width = 0.8 * (designVert "index").height ∧
     (designVert "index").canvasWidth = max (1.2 * (designVert "index").height) 80 ∧
     (designVert "index").canvasHeight = max (1.5 * (designVert "index").height) 100 ∧
     80 ≤ (designVert "index").canvasWidth ∧ 100 ≤ (designVert "index").canvasHeight) :=
  ⟨extract_vertical "index",
    claim_C10_design_invariants "index" lmA lmB lmC 1000 1000 _ (extract_vertical "index")⟩

/-- Claim C6: compositing a design back onto geometry identical to the
extraction geometry (same centre, rotation and length, so scale
`height/height = 1`) inverts the extractor's de-rotation exactly: the
composed map is the identity on source points, the canvas centre lands
back on the original nail centre (distance `0 ≤ 1` px) and the applied
rotation differs from the recorded one by `0 ≤ 1e-6` rad. -/
theorem claim_C6_roundtrip (f : String) (tip base mid : HandLandmark) (w h : ℝ)
    (d : ExtractedNailDesign)
    (hd : extractSingleNailDesign f tip base mid w h = some d) :
    (∀ q : ℝ × ℝ,
      compositeMap d.originalPosition d.rotation (d.height / d.height)
        d.canvasWidth d.canvasHeight
        (extractionMap d.originalPosition d.rotation d.canvasWidth d.canvasHeight q) = q) ∧
    compositeMap d.originalPosition d.rotation (d.height / d.height)
      d.canvasWidth d.canvasHeight (d.canvasWidth / 2, d.canvasHeight / 2) =
      d.originalPosition ∧
    euclideanDist
      (compositeMap d.originalPosition d.rotation (d.height / d.height)
        d.canvasWidth d.canvasHeight (d.canvasWidth / 2, d.canvasHeight / 2))
      d.originalPosition ≤ 1 ∧
    |d.rotation - d.rotation| ≤ 1e-6 := by
  have hh : d.height ≠ 0 := by
    obtain ⟨hcond, rfl⟩ := extract_some_inv hd
    push_neg at hcond
    show nailLengthOf tip base w h ≠ 0
    have := hcond.2
    exact ne_of_gt (by linarith)
  have hs : d.height / d.height = 1 := div_self hh
  rw [hs]
  have hcenter : compositeMap d.originalPosition d.rotation 1
      d.canvasWidth d.canvasHeight (d.canvasWidth / 2, d.canvasHeight / 2) =
      d.originalPosition := by
    simp only [compositeMap, rotatePoint]
    apply Prod.ext <;> ring_nf
  refine ⟨fun q => ?_, hcenter, ?_, by norm_num⟩
  · have hc := Real.sin_sq_add_cos_sq d.rotation
    simp only [compositeMap, extractionMap, rotatePoint, Real.cos_neg, Real.sin_neg]
    apply Prod.ext
    · linear_combination (q.1 - d.originalPosition.1) * hc
    · linear_combination (q.2 - d.originalPosition.2) * hc
  · rw [hcenter]
    simp [euclideanDist]

/-- Witness for C6: the round-trip conclusions at the Scenario 1
index-finger design. -/
theorem claim_C6_roundtrip_witness :
    extractSingleNailDesign "index" lmA lmB lmC 1000 1000 = some (designVert "index") ∧
    ((∀ q : ℝ × ℝ,
      compositeMap (designVert "index").originalPosition (designVert "index").rotation
        ((designVert "index").height / (designVert "index").height)
        (designVert "index").canvasWidth (designVert "index").canvasHeight
        (extractionMap (designVert "index").originalPosition (designVert "index").rotation
          (designVert "index").canvasWidth (designVert "index").canvasHeight q) = q) ∧
    compositeMap (designVert "index").originalPosition (designVert "index").rotation
      ((designVert "index").height / (designVert "index").height)
      (designVert "index").canvasWidth (designVert "index").canvasHeight
      ((designVert "index").canvasWidth / 2, (designVert "index").canvasHeight / 2) =
      (designVert "index").originalPosition ∧
    euclideanDist
      (compositeMap (designVert "index").originalPosition (designVert "index").rotation
        ((designVert "index").height / (designVert "index").height)
        (designVert "index").canvasWidth (designVert "index").canvasHeight
        ((designVert "index").canvasWidth / 2, (designVert "index").canvasHeight / 2))
      (designVert "index").originalPosition ≤ 1 ∧
    |(designVert "index").rotation - (designVert "index").rotation| ≤ 1e-6) :=
  ⟨extract_vertical "index",
    claim_C6_roundtrip "index" lmA lmB lmC 1000 1000 _ (extract_vertical "index")⟩

/-- Claim C5: geometry computation rejects exactly on the source's
condition (quality `min(length/50, 1) < 0.3` or length `< 20`), a
finger with a missing tip/base/mid landmark is skipped, a finger whose
extraction was rejected contributes no design (under its finger id) to
the extraction output, and compositing only ever draws designs taken
from the stored list. -/
theorem claim_C5_rejection :
    (∀ (f : String) (tip base mid : HandLandmark) (w h : ℝ),
      extractSingleNailDesign f tip base mid w h = none ↔
        (min (nailLengthOf tip base w h / 50) 1 < 0.3 ∨ nailLengthOf tip base w h < 20)) ∧
    (∀ (lms : List HandLandmark) (w h : ℝ) (fingerName : String) (indices : FingerIndices),
      (lms[indices.tip]? = none ∨ lms[indices.base]? = none ∨ lms[indices.mid]? = none) →
      fingerExtract lms w h fingerName indices = none) ∧
    (∀ (lms : List HandLandmark) (w h : ℝ) (fingerName : String) (indices : FingerIndices),
      (fingerName, indices) ∈ FINGER_LANDMARKS →
      fingerExtract lms w h fingerName indices = none →
      ∀ d ∈ processHandLandmarks lms w h, d.fingerId ≠ lowerName fingerName) ∧
    (∀ (hand : List HandLandmark) (designs : List ExtractedNailDesign) (cw ch : ℝ),
      ∀ a ∈ compositeApplications hand designs cw ch, a.design ∈ designs) := by
  refine ⟨extract_none_iff, fingerExtract_missing_none, ?_,
    fun hand designs cw ch a ha => composite_design_mem hand designs cw ch a ha⟩
  intro lms w h fingerName indices hmem hnone d hd hco
  obtain ⟨e, he, hfe⟩ := List.mem_filterMap.1 hd
  have hid : d.fingerId = lowerName e.1 := fingerExtract_some_fingerId hfe
  rw [hid] at hco
  have heq : e = (fingerName, indices) :=
    table_names_distinct e he (fingerName, indices) hmem hco
  rw [heq] at hfe
  have hcontra : (some d : Option ExtractedNailDesign) = none := by
    rw [← hnone]
    exact hfe.symm
  exact Option.some_ne_none d hcontra

/-- Witness for C5: the degenerate thumb satisfies the rejection
equivalence; on a 20-entry landmark list the pinky tip (index 20) is
missing, so the pinky is skipped and no design of finger id `pinky`
appears; every composited design on the Scenario hands is a stored
design. -/
theorem claim_C5_rejection_witness :
    (extractSingleNailDesign "thumb" lmA lmA lmA 1000 1000 = none ↔
      (min (nailLengthOf lmA lmA 1000 1000 / 50) 1 < 0.3 ∨
        nailLengthOf lmA lmA 1000 1000 < 20)) ∧
    fingerExtract (srcHand.take 20) 1000 1000 "PINKY" ⟨20, 18, 19, 17⟩ = none ∧
    (∀ d ∈ processHandLandmarks (srcHand.take 20) 1000 1000,
      d.fingerId ≠ lowerName "PINKY") ∧
    (∀ a ∈ compositeApplications tgtHand
        (processHandLandmarks srcHand 1000 1000) 1000 1000,
      a.design ∈ processHandLandmarks srcHand 1000 1000) := by
  have hmiss : (srcHand.take 20)[20]? = (none : Option HandLandmark) := rfl
  have hnone := claim_C5_rejection.2.1 (srcHand.take 20) 1000 1000 "PINKY"
    ⟨20, 18, 19, 17⟩ (Or.inl hmiss)
  exact ⟨claim_C5_rejection.1 "thumb" lmA lmA lmA 1000 1000, hnone,
    claim_C5_rejection.2.2.1 (srcHand.take 20) 1000 1000 "PINKY" ⟨20, 18, 19, 17⟩
      (by decide) hnone,
    fun a ha => claim_C5_rejection.2.2.2 tgtHand _ 1000 1000 a ha⟩

/-- Claim C2 fails on the code: compositing looks designs up by
position (`extractedDesigns[index]`), not by finger.  On a source hand
whose thumb extraction is rejected, the stored list holds no thumb
design, yet the target hand's thumb slot receives the index finger's
design — a finger whose own extraction failed gets a composited
design, so its region is not left untouched. -/
theorem claim_C2_positional_mismatch :
    (∀ d ∈ processHandLandmarks srcHand 1000 1000, d.fingerId ≠ "thumb") ∧
    ∃ a ∈ compositeApplications tgtHand
        (processHandLandmarks srcHand 1000 1000) 1000 1000,
      a.fingerName = "THUMB" ∧ a.design.fingerId = "index" := by
  constructor
  · rw [processHand_src]
    intro d hd
    simp only [List.mem_cons, List.not_mem_nil, or_false] at hd
    rcases hd with rfl | rfl | rfl | rfl <;> decide
  · rw [processHand_src]
    exact ⟨_, List.mem_filterMap.2 ⟨(0, ("THUMB", ⟨4, 2, 3, 1⟩)), by decide,
      fingerComposite_eval tgtHand _ 1000 1000 0 "THUMB" ⟨4, 2, 3, 1⟩ lmA lmB lmC
        (designVert "index") rfl rfl rfl rfl⟩, rfl, rfl⟩

/-- Claim C8: when detection returns zero hands the result canvas
still holds exactly the original target image with no overlays, and
this canvas is exported as the processed image (step not advanced,
zero designs applied). -/
theorem claim_C8_no_hand_renders_original (designs : List ExtractedNailDesign)
    (img : Image) :
    applyDesignsToDetectedHand [] designs img =
      { canvas := ⟨img, []⟩
        processedImage := some ⟨img, []⟩
        stepApply := false
        designsApplied := 0 } := rfl

lemma extractionOnResults_success (hand : List HandLandmark) (rest : List (List HandLandmark))
    (w h : ℝ) (s : AppState)
    (hpos : 0 < (processHandLandmarks hand w h).length) :
    extractionOnResults (hand :: rest) w h s =
      { s with extractedDesigns := processHandLandmarks hand w h
               currentStep := "capture"
               statusMessage := "Successfully extracted " ++
                 toString (processHandLandmarks hand w h).length ++
                 " nail designs! Now capture your hand to apply them."
               processingProgress := 100
               isLoading := false } := by
  simp only [extractionOnResults]
  rw [if_pos hpos]

/-- Claim C9 fails on the code: `handleReset` installs no generation
counter or cancellation token, so a detector callback that fires after
a reset still runs against the fresh state and overwrites it — here it
refills `extractedDesigns` and moves `currentStep` from `"upload"`
back to `"capture"`. -/
theorem claim_C9_stale_callback_mutates (s0 : AppState) :
    (extractionOnResults [srcHand] 1000 1000 (handleReset s0)).extractedDesigns =
      [designVert "index", designVert "middle", designVert "ring", designVert "pinky"] ∧
    (extractionOnResults [srcHand] 1000 1000 (handleReset s0)).currentStep = "capture" ∧
    (handleReset s0).extractedDesigns = [] ∧
    (handleReset s0).currentStep = "upload" ∧
    extractionOnResults [srcHand] 1000 1000 (handleReset s0) ≠ handleReset s0 := by
  have hpos : 0 < (processHandLandmarks srcHand 1000 1000).length := by
    rw [processHand_src]
    norm_num
  have hres := extractionOnResults_success srcHand [] 1000 1000 (handleReset s0) hpos
  refine ⟨?_, ?_, rfl, rfl, ?_⟩
  · rw [hres]
    exact processHand_src
  · rw [hres]
  · rw [hres]
    intro heq
    exact absurd (show ("capture" : String) = "upload" from
      congrArg AppState.currentStep heq) (by decide)

end NailTryOn
